import Mathlib

/-!
Verification of the todo HTTP service (`src/main.go`) against its
natural-language specification.

The Go program is a CRUD service over a single Mongo collection.  We give a
shallow embedding: the persisted collection is a `List TodoModel`, the Mongo
driver operations `InsertOne` / `UpdateOne` / `DeleteOne` become pure
functions on that list, and each HTTP handler becomes a function from its
inputs (path parameter, decoded body, current store) to the JSON responses it
writes and the resulting store.  JSON bodies produced by the handlers are
modelled as association lists of field names to values, mirroring the
`renderer.M` maps in the source.

External library behaviour that the handlers rely on is embedded faithfully:
`primitive.ObjectIDFromHex` (length-24 check plus case-insensitive hex
decoding, as in Go's `encoding/hex`, with the driver's structured parse
error); `strings.TrimSpace` over the full Unicode White_Space set;
`encoding/json`'s `Decode`, whose failure can leave fields that were decoded
before the error set in the target struct (modelled by the `DecodeRes.err`
constructor carrying the partially filled value); and `InsertOne`'s
`InsertedID`, which is the `_id` the driver's `ensureID` generates for the
document — distinct from the ObjectID the program stores under the bson key
`id` — because the marshalled `TodoModel` carries no `_id` field.
-/

namespace TodoApp

/-- A BSON ObjectID: the 12 decoded bytes, as in
`go.mongodb.org/mongo-driver/bson/primitive.ObjectID`. -/
abbrev ObjectID := List Nat

/-- Hex digit decoding as in Go `encoding/hex.fromHexChar`: digits `0-9`,
`a-f` and `A-F` are accepted (the decoder is case-insensitive). -/
def fromHexChar (c : Char) : Option Nat :=
  if '0' ≤ c ∧ c ≤ '9' then some (c.toNat - '0'.toNat)
  else if 'a' ≤ c ∧ c ≤ 'f' then some (c.toNat - 'a'.toNat + 10)
  else if 'A' ≤ c ∧ c ≤ 'F' then some (c.toNat - 'A'.toNat + 10)
  else none

/-- Hexadecimal digit, upper or lower case, as accepted by Go
`encoding/hex`. -/
def isHexDigitGo (c : Char) : Bool :=
  ('0' ≤ c && c ≤ '9') || ('a' ≤ c && c ≤ 'f') || ('A' ≤ c && c ≤ 'F')

/-- Go `encoding/hex.DecodeString` on a character list: consume two hex
digits per output byte; any non-hex character or odd length fails. -/
def hexDecodeBytes : List Char → Option (List Nat)
  | [] => some []
  | [_] => none
  | c1 :: c2 :: rest =>
    match fromHexChar c1, fromHexChar c2, hexDecodeBytes rest with
    | some h, some l, some bs => some ((h * 16 + l) :: bs)
    | _, _, _ => none

/-- `primitive.ObjectIDFromHex`: a string parses to an ObjectID iff it has
length 24 and hex-decodes (case-insensitively) to 12 bytes. -/
def ObjectIDFromHex (s : String) : Option ObjectID :=
  if s.length = 24 then hexDecodeBytes s.data else none

/-- The error value of a failed `ObjectIDFromHex` call.  The driver returns
`primitive.ErrInvalidHex` (text: "the provided hex string is not a valid
ObjectID") when the string's length is not 24, and otherwise surfaces
`encoding/hex`'s `InvalidByteError` naming the first offending byte (its
text is produced by `fmt` with `%#U`).  We keep the error structured instead
of re-implementing `fmt`'s rendering; for a non-ASCII character Go would
name the character's first UTF-8 byte where the model carries the
character. -/
inductive HexParseErr where
  | errInvalidHex
  | invalidByte (c : Char)
deriving DecidableEq, Repr

/-- The error value `ObjectIDFromHex` produces on a given (rejected)
string: wrong length gives `ErrInvalidHex`; a 24-character string fails in
`hex.Decode` at its first non-hex byte. -/
def hexParseErr (s : String) : HexParseErr :=
  if s.length = 24 then
    match s.data.find? (fun c => ! isHexDigitGo c) with
    | some c => .invalidByte c
    | none => .errInvalidHex
  else .errInvalidHex

/-- Lowercase hex rendering of one byte, as in `ObjectID.Hex`. -/
def hexChar (n : Nat) : Char :=
  if n < 10 then Char.ofNat ('0'.toNat + n) else Char.ofNat ('a'.toNat + n - 10)

/-- `primitive.ObjectID.Hex`: lowercase hex string of the 12 bytes. -/
def oidHex (o : ObjectID) : String :=
  ⟨(o.map (fun b => [hexChar (b / 16 % 16), hexChar (b % 16)])).flatten⟩

/-- Whitespace as recognised by Go `unicode.IsSpace`: the Unicode
White_Space property (Latin-1 cases plus U+1680, U+2000..U+200A, U+2028,
U+2029, U+202F, U+205F and U+3000). -/
def isGoSpace (c : Char) : Bool :=
  c = ' ' || c = '\t' || c = '\n' || c = '\x0b' || c = '\x0c' || c = '\r' ||
  c = '\u0085' || c = '\u00A0' || c = '\u1680' ||
  ('\u2000' ≤ c && c ≤ '\u200A') ||
  c = '\u2028' || c = '\u2029' || c = '\u202F' || c = '\u205F' || c = '\u3000'

/-- Go `strings.TrimSpace`: drop leading and trailing whitespace. -/
def trimSpace (s : String) : String :=
  ⟨((s.data.dropWhile isGoSpace).reverse.dropWhile isGoSpace).reverse⟩

/-- The persisted document (`TodoModel` in `main.go`); `CreatedAt` is an
abstract timestamp. -/
structure TodoModel where
  ID : ObjectID
  Title : String
  Completed : Bool
  CreatedAt : Nat
deriving DecidableEq, Repr

/-- Wire form of a todo item (`Todo` in `main.go`): the id rendered as a
hex string. -/
structure Todo where
  ID : String
  Title : String
  Completed : Bool
  CreatedAt : Nat
deriving DecidableEq, Repr

/-- Request body for POST `/todo` (`CreateTodo` in `main.go`): the struct
declares only a `title` field, so decoding ignores any other JSON keys. -/
structure CreateTodo where
  Title : String
deriving DecidableEq, Repr

/-- Request body for PUT `/todo/{id}` (`UpdateTodo` in `main.go`). -/
structure UpdateTodo where
  Title : String
  Completed : Bool
deriving DecidableEq, Repr

/-- A JSON value appearing in a response body field.  The `hexErr`
constructor holds the structured error value of a failed id parse; on the
wire the handler writes `err.Error()`, i.e. that value's rendered text. -/
inductive JVal where
  | str (s : String)
  | num (n : Nat)
  | oid (o : ObjectID)
  | arr (items : List Todo)
  | hexErr (e : HexParseErr)
deriving DecidableEq, Repr

/-- A JSON response written by a handler: HTTP status plus the body as an
association list of field names to values (a `renderer.M` map). -/
structure Response where
  status : Nat
  body : List (String × JVal)
deriving DecidableEq, Repr

/-- Outcome of `json.NewDecoder(r.Body).Decode(&v)`.  On failure Go leaves
in `v` whatever fields were decoded before the error, so `err` carries the
partially filled struct together with the error text. -/
inductive DecodeRes (α : Type) where
  | ok (v : α)
  | err (part : α) (msg : String)
deriving DecidableEq, Repr

/-- A raw POST `/todo` JSON body that decoded without error: the client may
send a `title` and also a `completed` value. -/
structure PostBody where
  title : String
  sendsCompleted : Bool
  completedVal : Bool
deriving DecidableEq, Repr

/-- Decoding a well-formed POST body into the Go struct `CreateTodo`
(`main.go` lines 55-57): the struct has only the `title` field, so the
client's `completed` value is dropped by `encoding/json`. -/
def decodeCreateBody (b : PostBody) : CreateTodo := ⟨b.title⟩

/-- `db.Collection(...).InsertOne`: append the document to the collection. -/
def insertOne (state : List TodoModel) (doc : TodoModel) : List TodoModel :=
  state ++ [doc]

/-- `db.Collection(...).UpdateOne` with filter `{id: objID}` and update
`{$set: {title, completed}}`: modify the first matching document, returning
the modified count.  Mongo counts a document as modified only if the write
actually changed it, so a match that already has the new values reports 0. -/
def updateOne (state : List TodoModel) (objID : ObjectID)
    (title : String) (completed : Bool) : Nat × List TodoModel :=
  match state with
  | [] => (0, [])
  | td :: rest =>
    if td.ID = objID then
      if td.Title = title ∧ td.Completed = completed then
        (0, td :: rest)
      else
        (1, { td with Title := title, Completed := completed } :: rest)
    else
      let r := updateOne rest objID title completed
      (r.1, td :: r.2)

/-- `db.Collection(...).DeleteOne` with filter `{id: objID}`: remove the
first matching document, returning the deleted count. -/
def deleteOne (state : List TodoModel) (objID : ObjectID) :
    Nat × List TodoModel :=
  match state with
  | [] => (0, [])
  | td :: rest =>
    if td.ID = objID then
      (1, rest)
    else
      let r := deleteOne rest objID
      (r.1, td :: r.2)

/-- Wire mapping used by `getTodos` (`main.go` lines 193-201). -/
def toWire (td : TodoModel) : Todo :=
  ⟨oidHex td.ID, td.Title, td.Completed, td.CreatedAt⟩

/-- Handler for GET `/todo` (`main.go` lines 170-206), on the success path
(the find succeeded): 200 with the whole collection in wire form. -/
def getTodos (state : List TodoModel) : Response :=
  ⟨200, [("message", .str "All todos retrieved"),
         ("data", .arr (state.map toWire))]⟩

/-- Handler for POST `/todo` (`main.go` lines 208-252).  Inputs: the current
store, the body-decode outcome, the ObjectID produced by
`primitive.NewObjectID()` (stored in the document's `id` field, tag
`bson:"id,omitempty"`), the ObjectID the driver's `ensureID` generates for
`_id` inside `InsertOne` (the marshalled document has no `_id` field, so the
driver adds one; `result.InsertedID` is that id, main.go line 250), and the
current time.  No reader of the collection filters on or decodes `_id`, so
the store keeps only the document fields the program reads. -/
def createTodo (state : List TodoModel) (body : DecodeRes CreateTodo)
    (newId : ObjectID) (insertedId : ObjectID) (now : Nat) :
    Response × List TodoModel :=
  match body with
  | .err _ _ =>
    (⟨400, [("message", .str "could not decode data")]⟩, state)
  | .ok todoReq =>
    if todoReq.Title = "" then
      (⟨400, [("message", .str "please add a title")]⟩, state)
    else
      let todoModel : TodoModel := ⟨newId, todoReq.Title, false, now⟩
      let state2 := insertOne state todoModel
      (⟨201, [("message", .str "Todo created successfully"),
              ("ID", .oid insertedId)]⟩, state2)

/-- Handler for PUT `/todo/{id}` (`main.go` lines 254-307).  The id path
parameter is whitespace-trimmed, then parsed.  On a body-decode error the
handler writes a 400 response but does NOT return, so execution continues
into the title check and possibly the database update: the result is the
list of responses written, in order, plus the new store.  The status the
client sees is that of the first response written. -/
def updateTodo (state : List TodoModel) (idParam : String)
    (body : DecodeRes UpdateTodo) : List Response × List TodoModel :=
  let id := trimSpace idParam
  match ObjectIDFromHex id with
  | none =>
    ([⟨400, [("message", .str "The id is invalid"),
             ("error", .hexErr (hexParseErr id))]⟩], state)
  | some objID =>
    let decodeErrWrites : List Response :=
      match body with
      | .err _ msg =>
        [⟨400, [("message", .str "could not decode the data"),
                ("error", .str msg)]⟩]
      | .ok _ => []
    let updateTodoReq := match body with | .ok v => v | .err p _ => p
    if updateTodoReq.Title = "" then
      (decodeErrWrites ++ [⟨400, [("message", .str "title cannot be empty")]⟩],
       state)
    else
      let r := updateOne state objID updateTodoReq.Title updateTodoReq.Completed
      (decodeErrWrites ++ [⟨200, [("message", .str "Updated successfully"),
                                  ("resultCount", .num r.1)]⟩],
       r.2)

/-- Handler for DELETE `/todo/{id}` (`main.go` lines 309-349): parse the id
(no trimming here), delete the first match, 404 when nothing was deleted,
otherwise 200 with the deleted count under the (misspelled) key
`resultCont`. -/
def deleteTodo (state : List TodoModel) (idParam : String) :
    Response × List TodoModel :=
  match ObjectIDFromHex idParam with
  | none =>
    (⟨400, [("message", .str "the ID is invalid"),
            ("error", .hexErr (hexParseErr idParam))]⟩, state)
  | some objID =>
    let r := deleteOne state objID
    if r.1 = 0 then
      (⟨404, [("message", .str "Todo not found")]⟩, r.2)
    else
      (⟨200, [("message", .str "Item deleted successfully"),
              ("resultCont", .num r.1)]⟩, r.2)

/-! ### Properties of the hex identifier parser -/

theorem fromHexChar_isSome_iff (c : Char) :
    (fromHexChar c).isSome = isHexDigitGo c := by
  unfold fromHexChar isHexDigitGo
  split_ifs with h1 h2 h3 <;> simp_all

theorem twoStepInduction {motive : List Char → Prop} (h0 : motive [])
    (h1 : ∀ c, motive [c])
    (h2 : ∀ c1 c2 rest, motive rest → motive (c1 :: c2 :: rest)) :
    ∀ l, motive l
  | [] => h0
  | [c] => h1 c
  | c1 :: c2 :: rest => h2 c1 c2 rest (twoStepInduction h0 h1 h2 rest)

theorem hexDecodeBytes_isSome_iff (l : List Char) :
    (hexDecodeBytes l).isSome ↔ l.length % 2 = 0 ∧ ∀ c ∈ l, isHexDigitGo c := by
  induction l using twoStepInduction with
  | h0 => simp [hexDecodeBytes]
  | h1 c => simp [hexDecodeBytes]
  | h2 c1 c2 rest ih =>
    constructor
    · intro h
      rcases hc1 : fromHexChar c1 with _ | v1 <;> rcases hc2 : fromHexChar c2 with _ | v2 <;>
        rcases hr : hexDecodeBytes rest with _ | bs <;>
          simp [hexDecodeBytes, hc1, hc2, hr] at h
      have hrec := ih.mp (by simp [hr])
      constructor
      · have := hrec.1
        simp only [List.length_cons]
        omega
      · intro c hc
        simp only [List.mem_cons] at hc
        rcases hc with hc | hc | hc
        · subst hc; rw [← fromHexChar_isSome_iff, hc1]; rfl
        · subst hc; rw [← fromHexChar_isSome_iff, hc2]; rfl
        · exact hrec.2 c hc
    · rintro ⟨hlen, hall⟩
      have h1 : (fromHexChar c1).isSome := by
        rw [fromHexChar_isSome_iff]; exact hall c1 (by simp)
      have h2 : (fromHexChar c2).isSome := by
        rw [fromHexChar_isSome_iff]; exact hall c2 (by simp)
      have hr : (hexDecodeBytes rest).isSome := by
        rw [ih]
        refine ⟨?_, fun c hc => hall c (by simp [hc])⟩
        simp only [List.length_cons] at hlen
        omega
      rcases hc1 : fromHexChar c1 with _ | v1
      · rw [hc1] at h1; simp at h1
      rcases hc2 : fromHexChar c2 with _ | v2
      · rw [hc2] at h2; simp at h2
      rcases hrr : hexDecodeBytes rest with _ | bs
      · rw [hrr] at hr; simp at hr
      simp [hexDecodeBytes, hc1, hc2, hrr]

/-- `ObjectIDFromHex` rejects a string exactly when it is not 24
characters of (case-insensitive) hexadecimal digits. -/
theorem ObjectIDFromHex_eq_none_iff (s : String) :
    ObjectIDFromHex s = none ↔ ¬(s.length = 24 ∧ ∀ c ∈ s.data, isHexDigitGo c) := by
  unfold ObjectIDFromHex
  by_cases hlen : s.length = 24
  · rw [if_pos hlen]
    have hdata : s.data.length = 24 := hlen
    rw [← Option.not_isSome_iff_eq_none, hexDecodeBytes_isSome_iff, hdata]
    simp [hlen]
  · rw [if_neg hlen]
    simp [hlen]

/-! ### Properties of the embedded collection operations -/

theorem updateOne_not_mem (state : List TodoModel) (o : ObjectID)
    (t : String) (c : Bool) (h : o ∉ state.map TodoModel.ID) :
    updateOne state o t c = (0, state) := by
  induction state with
  | nil => rfl
  | cons td rest ih =>
    simp only [List.map_cons, List.mem_cons, not_or] at h
    have hne : ¬ td.ID = o := fun he => h.1 he.symm
    simp only [updateOne, if_neg hne, ih h.2]

theorem updateOne_first_match (pre post : List TodoModel) (td : TodoModel)
    (o : ObjectID) (t : String) (c : Bool) (hid : td.ID = o)
    (hpre : o ∉ pre.map TodoModel.ID) :
    (updateOne (pre ++ td :: post) o t c).2
      = pre ++ { td with Title := t, Completed := c } :: post := by
  induction pre with
  | nil =>
    simp only [List.nil_append, updateOne, if_pos hid]
    by_cases hv : td.Title = t ∧ td.Completed = c
    · rw [if_pos hv]
      cases td
      obtain ⟨hv1, hv2⟩ := hv
      simp_all
    · rw [if_neg hv]
  | cons hd tl ih =>
    simp only [List.map_cons, List.mem_cons, not_or] at hpre
    have hne : ¬ hd.ID = o := fun he => hpre.1 he.symm
    simp only [List.cons_append, updateOne, if_neg hne]
    exact congrArg (hd :: ·) (ih hpre.2)

theorem updateOne_map_ID (state : List TodoModel) (o : ObjectID)
    (t : String) (c : Bool) :
    ((updateOne state o t c).2).map TodoModel.ID = state.map TodoModel.ID := by
  induction state with
  | nil => rfl
  | cons td rest ih =>
    by_cases hid : td.ID = o
    · by_cases hv : td.Title = t ∧ td.Completed = c
      · simp [updateOne, hid, hv]
      · simp [updateOne, hid, hv]
    · simp [updateOne, hid, ih]

theorem updateOne_map_CreatedAt (state : List TodoModel) (o : ObjectID)
    (t : String) (c : Bool) :
    ((updateOne state o t c).2).map TodoModel.CreatedAt
      = state.map TodoModel.CreatedAt := by
  induction state with
  | nil => rfl
  | cons td rest ih =>
    by_cases hid : td.ID = o
    · by_cases hv : td.Title = t ∧ td.Completed = c
      · simp [updateOne, hid, hv]
      · simp [updateOne, hid, hv]
    · simp [updateOne, hid, ih]

theorem updateOne_titles (state : List TodoModel) (o : ObjectID)
    (t : String) (c : Bool) (ht : t ≠ "")
    (h : ∀ td ∈ state, td.Title ≠ "") :
    ∀ td ∈ (updateOne state o t c).2, td.Title ≠ "" := by
  induction state with
  | nil => simp [updateOne]
  | cons td rest ih =>
    have hhd := h td (by simp)
    have htl : ∀ x ∈ rest, x.Title ≠ "" := fun x hx => h x (by simp [hx])
    by_cases hid : td.ID = o
    · by_cases hv : td.Title = t ∧ td.Completed = c
      · intro x hx
        simp only [updateOne, if_pos hid, if_pos hv, List.mem_cons] at hx
        rcases hx with hx | hx
        · subst hx; exact hhd
        · exact htl x hx
      · intro x hx
        simp only [updateOne, if_pos hid, if_neg hv, List.mem_cons] at hx
        rcases hx with hx | hx
        · subst hx; simpa using ht
        · exact htl x hx
    · intro x hx
      simp only [updateOne, if_neg hid, List.mem_cons] at hx
      rcases hx with hx | hx
      · subst hx; exact hhd
      · exact ih htl x hx

theorem deleteOne_not_mem (state : List TodoModel) (o : ObjectID)
    (h : o ∉ state.map TodoModel.ID) : deleteOne state o = (0, state) := by
  induction state with
  | nil => rfl
  | cons td rest ih =>
    simp only [List.map_cons, List.mem_cons, not_or] at h
    have hne : ¬ td.ID = o := fun he => h.1 he.symm
    simp only [deleteOne, if_neg hne, ih h.2]

theorem deleteOne_first_match (pre post : List TodoModel) (td : TodoModel)
    (o : ObjectID) (hid : td.ID = o) (hpre : o ∉ pre.map TodoModel.ID) :
    deleteOne (pre ++ td :: post) o = (1, pre ++ post) := by
  induction pre with
  | nil => simp [deleteOne, hid]
  | cons hd tl ih =>
    simp only [List.map_cons, List.mem_cons, not_or] at hpre
    have hne : ¬ hd.ID = o := fun he => hpre.1 he.symm
    have hstep : deleteOne ((hd :: tl) ++ td :: post) o
        = ((deleteOne (tl ++ td :: post) o).1,
           hd :: (deleteOne (tl ++ td :: post) o).2) := by
      simp [deleteOne, hne]
    rw [hstep, ih hpre.2]
    rfl

theorem deleteOne_sublist (state : List TodoModel) (o : ObjectID) :
    (deleteOne state o).2.Sublist state := by
  induction state with
  | nil => simp [deleteOne]
  | cons td rest ih =>
    by_cases hid : td.ID = o
    · simp only [deleteOne, if_pos hid]
      exact List.Sublist.cons td (List.Sublist.refl rest)
    · simp only [deleteOne, if_neg hid]
      exact List.Sublist.cons₂ td ih

theorem exists_first_match (state : List TodoModel) (o : ObjectID)
    (h : o ∈ state.map TodoModel.ID) :
    ∃ pre td post, state = pre ++ td :: post ∧ td.ID = o ∧
      o ∉ pre.map TodoModel.ID := by
  induction state with
  | nil => simp at h
  | cons hd rest ih =>
    by_cases hhd : hd.ID = o
    · exact ⟨[], hd, rest, rfl, hhd, by simp⟩
    · have hr : o ∈ rest.map TodoModel.ID := by
        simp only [List.map_cons, List.mem_cons] at h
        rcases h with h | h
        · exact absurd h.symm hhd
        · exact h
      obtain ⟨pre, td, post, h1, h2, h3⟩ := ih hr
      refine ⟨hd :: pre, td, post, by simp [h1], h2, ?_⟩
      simp only [List.map_cons, List.mem_cons, not_or]
      exact ⟨fun he => hhd he.symm, h3⟩

/-- Case analysis of the store left by the PUT handler: it is unchanged,
or it is an `updateOne` with a parsed id and a non-empty title. -/
theorem updateTodo_state_cases (state : List TodoModel) (idParam : String)
    (body : DecodeRes UpdateTodo) :
    (updateTodo state idParam body).2 = state ∨
    ∃ o t c, ObjectIDFromHex (trimSpace idParam) = some o ∧ t ≠ "" ∧
      (updateTodo state idParam body).2 = (updateOne state o t c).2 := by
  rcases hOID : ObjectIDFromHex (trimSpace idParam) with _ | o
  · left; simp [updateTodo, hOID]
  · rcases body with v | ⟨p, m⟩
    · by_cases ht : v.Title = ""
      · left; simp [updateTodo, hOID, ht]
      · right
        exact ⟨o, v.Title, v.Completed, rfl, ht, by simp [updateTodo, hOID, ht]⟩
    · by_cases ht : p.Title = ""
      · left; simp [updateTodo, hOID, ht]
      · right
        exact ⟨o, p.Title, p.Completed, rfl, ht, by simp [updateTodo, hOID, ht]⟩

/-- Every response the PUT handler can write, with its exact body. -/
theorem updateTodo_responses (state : List TodoModel) (idParam : String)
    (body : DecodeRes UpdateTodo) :
    ∀ r ∈ (updateTodo state idParam body).1,
      (r.status = 400 ∧ r.body = [("message", JVal.str "The id is invalid"),
                                  ("error", JVal.hexErr (hexParseErr (trimSpace idParam)))]) ∨
      (∃ m, r.status = 400 ∧ r.body = [("message", JVal.str "could not decode the data"),
                                       ("error", JVal.str m)]) ∨
      (r.status = 400 ∧ r.body = [("message", JVal.str "title cannot be empty")]) ∨
      (∃ n, r.status = 200 ∧ r.body = [("message", JVal.str "Updated successfully"),
                                       ("resultCount", JVal.num n)]) := by
  intro r hr
  rcases hOID : ObjectIDFromHex (trimSpace idParam) with _ | o <;>
    rcases body with v | ⟨p, m⟩
  · simp [updateTodo, hOID] at hr
    subst hr; left; exact ⟨rfl, rfl⟩
  · simp [updateTodo, hOID] at hr
    subst hr; left; exact ⟨rfl, rfl⟩
  · by_cases ht : v.Title = "" <;> simp [updateTodo, hOID, ht] at hr <;> subst hr
    · right; right; left; exact ⟨rfl, rfl⟩
    · right; right; right; exact ⟨_, rfl, rfl⟩
  · by_cases ht : p.Title = "" <;> simp [updateTodo, hOID, ht] at hr <;>
      rcases hr with hr | hr <;> subst hr
    · right; left; exact ⟨m, rfl, rfl⟩
    · right; right; left; exact ⟨rfl, rfl⟩
    · right; left; exact ⟨m, rfl, rfl⟩
    · right; right; right; exact ⟨_, rfl, rfl⟩

/-! ### Sample values used by concrete evaluations -/

/-- The ObjectID whose hex rendering is `aaaaaaaaaaaaaaaaaaaaaaaa`. -/
def oidA : ObjectID := List.replicate 12 170

/-- A second ObjectID, distinct from `oidA`. -/
def oidB : ObjectID := List.replicate 12 187

/-- The response body has a field named `k` holding some string. -/
def hasStrField (r : Response) (k : String) : Prop :=
  ∃ s, (k, JVal.str s) ∈ r.body

/-- The response body has a field named `k`, holding any value. -/
def hasField (r : Response) (k : String) : Prop :=
  ∃ v, (k, v) ∈ r.body

/-- Every response the DELETE handler can write, with its exact body. -/
theorem deleteTodo_responses (state : List TodoModel) (idParam : String) :
    ((deleteTodo state idParam).1.status = 400 ∧
      (deleteTodo state idParam).1.body
        = [("message", JVal.str "the ID is invalid"),
           ("error", JVal.hexErr (hexParseErr idParam))]) ∨
    ((deleteTodo state idParam).1.status = 404 ∧
      (deleteTodo state idParam).1.body = [("message", JVal.str "Todo not found")]) ∨
    (∃ n, (deleteTodo state idParam).1.status = 200 ∧
      (deleteTodo state idParam).1.body
        = [("message", JVal.str "Item deleted successfully"),
           ("resultCont", JVal.num n)]) := by
  rcases hOID : ObjectIDFromHex idParam with _ | o
  · left; simp [deleteTodo, hOID]
  · by_cases hc : (deleteOne state o).1 = 0
    · right; left; simp [deleteTodo, hOID, hc]
    · right; right
      exact ⟨(deleteOne state o).1, by simp [deleteTodo, hOID, hc],
             by simp [deleteTodo, hOID, hc]⟩

/-! ### The claims -/

/-- C1: the spec requires that a PUT `/todo/{id}` request with a well-formed
id but an undecodable JSON body is answered with 400 and leaves the persisted
state unchanged.  The code writes the 400 decode-error response but is
missing a `return` (`main.go` lines 269-275), so execution continues: when
the decode error struck after the `title` field was already filled in, the
handler proceeds to the database update.  At the concrete failing input below
(an existing item, a body whose `title` decoded as `"new title"` before the
decoder failed on `completed`), the handler writes the 400 response, then a
second 200 response, and the persisted record is modified. -/
theorem C1_update_decode_error_still_updates :
    ((updateTodo [⟨oidA, "old title", false, 7⟩] "aaaaaaaaaaaaaaaaaaaaaaaa"
        (DecodeRes.err ⟨"new title", false⟩
          "json: cannot unmarshal string into Go value of type bool")).1.map
        Response.status = [400, 200]) ∧
    (updateTodo [⟨oidA, "old title", false, 7⟩] "aaaaaaaaaaaaaaaaaaaaaaaa"
        (DecodeRes.err ⟨"new title", false⟩
          "json: cannot unmarshal string into Go value of type bool")).2
      = [⟨oidA, "new title", false, 7⟩] := by decide

/-- C2, as stated, is false: the claim says a whitespace-only title is
rejected with 400 and nothing is persisted, but `createTodo` compares the
title against the empty string only (`main.go` line 220), with no trimming.
At title `" "` the handler answers 201 and persists the record. -/
theorem C2_counterexample :
    ((createTodo [] (DecodeRes.ok ⟨" "⟩) oidA oidB 5).1.status = 201) ∧
    (createTodo [] (DecodeRes.ok ⟨" "⟩) oidA oidB 5).2 = [⟨oidA, " ", false, 5⟩] := by
  decide

/-- C2 (amended): for every POST `/todo` request whose title is exactly the
empty string, the create operation fails with 400 and no record is
persisted; titles consisting only of whitespace are accepted. -/
theorem C2_amended_create_empty_title :
    ∀ (state : List TodoModel) (newId insertedId : ObjectID) (now : Nat),
      (createTodo state (DecodeRes.ok ⟨""⟩) newId insertedId now).1.status = 400 ∧
      (createTodo state (DecodeRes.ok ⟨""⟩) newId insertedId now).2 = state := by
  intro state newId insertedId now
  constructor <;> simp [createTodo]

/-- C3, as stated, is false: the claim says every error response carries an
`error` string, but the 400 response to an empty-title create request
(`main.go` lines 220-226) carries only a `message` field. -/
theorem C3_counterexample :
    ((createTodo [] (DecodeRes.ok ⟨""⟩) oidA oidB 0).1.status = 400) ∧
    (createTodo [] (DecodeRes.ok ⟨""⟩) oidA oidB 0).1.body.map Prod.fst
      = ["message"] := by decide

/-- C3 (amended): every JSON response includes a `message` string.  A
successful create response carries the driver-generated inserted id under
the key `ID` (per C5 this is not the persisted item's id), a successful
update response the modified count under `resultCount`, and a successful
delete response the deleted count under `resultCont`.  The invalid-id 400
responses of PUT and DELETE and PUT's body-decode-failure 400 carry an
`error` field with the underlying error, but the create decode-failure,
empty-title and delete not-found error responses carry only a `message`. -/
theorem C3_amended_response_envelope :
    (∀ state, hasStrField (getTodos state) "message") ∧
    (∀ state body newId insertedId now,
      hasStrField (createTodo state body newId insertedId now).1 "message" ∧
      ((createTodo state body newId insertedId now).1.status = 201 →
        ("ID", JVal.oid insertedId)
          ∈ (createTodo state body newId insertedId now).1.body)) ∧
    (∀ state idParam body,
      (∀ r ∈ (updateTodo state idParam body).1, hasStrField r "message") ∧
      (∀ r ∈ (updateTodo state idParam body).1, r.status = 200 →
        ∃ n, ("resultCount", JVal.num n) ∈ r.body)) ∧
    (∀ state idParam,
      hasStrField (deleteTodo state idParam).1 "message" ∧
      ((deleteTodo state idParam).1.status = 200 →
        ∃ n, ("resultCont", JVal.num n) ∈ (deleteTodo state idParam).1.body)) ∧
    (∀ state idParam body, ObjectIDFromHex (trimSpace idParam) = none →
      ∀ r ∈ (updateTodo state idParam body).1, hasField r "error") ∧
    (∀ state idParam, ObjectIDFromHex idParam = none →
      hasField (deleteTodo state idParam).1 "error") ∧
    (∀ state idParam (p : UpdateTodo) (m : String) (o : ObjectID),
      ObjectIDFromHex (trimSpace idParam) = some o →
      ∃ r rs, (updateTodo state idParam (DecodeRes.err p m)).1 = r :: rs ∧
        r.status = 400 ∧ ("error", JVal.str m) ∈ r.body) ∧
    (∀ state (p : CreateTodo) (m : String) newId insertedId now,
      (createTodo state (DecodeRes.err p m) newId insertedId now).1.body.map
        Prod.fst = ["message"]) ∧
    (∀ state newId insertedId now,
      (createTodo state (DecodeRes.ok ⟨""⟩) newId insertedId now).1.body.map
        Prod.fst = ["message"]) ∧
    (∀ state idParam (v : UpdateTodo) (o : ObjectID),
      ObjectIDFromHex (trimSpace idParam) = some o → v.Title = "" →
      ∃ r, (updateTodo state idParam (DecodeRes.ok v)).1 = [r] ∧
        r.status = 400 ∧ r.body.map Prod.fst = ["message"]) ∧
    (∀ state idParam (o : ObjectID), ObjectIDFromHex idParam = some o →
      (deleteOne state o).1 = 0 →
      (deleteTodo state idParam).1.status = 404 ∧
      (deleteTodo state idParam).1.body.map Prod.fst = ["message"]) := by
  refine ⟨?_, ?_, ?_, ?_, ?_, ?_, ?_, ?_, ?_, ?_, ?_⟩
  · intro state
    exact ⟨"All todos retrieved", by simp [getTodos]⟩
  · intro state body newId insertedId now
    rcases body with v | ⟨p, m⟩
    · by_cases ht : v.Title = ""
      · exact ⟨⟨"please add a title", by simp [createTodo, ht]⟩,
               fun h => absurd h (by simp [createTodo, ht])⟩
      · exact ⟨⟨"Todo created successfully", by simp [createTodo, ht]⟩,
               fun _ => by simp [createTodo, ht]⟩
    · exact ⟨⟨"could not decode data", by simp [createTodo]⟩,
             fun h => absurd h (by simp [createTodo])⟩
  · intro state idParam body
    constructor
    · intro r hr
      rcases updateTodo_responses state idParam body r hr with
        ⟨_, hb⟩ | ⟨m, _, hb⟩ | ⟨_, hb⟩ | ⟨n, _, hb⟩
      · exact ⟨"The id is invalid", by rw [hb]; simp⟩
      · exact ⟨"could not decode the data", by rw [hb]; simp⟩
      · exact ⟨"title cannot be empty", by rw [hb]; simp⟩
      · exact ⟨"Updated successfully", by rw [hb]; simp⟩
    · intro r hr h200
      rcases updateTodo_responses state idParam body r hr with
        ⟨hs, _⟩ | ⟨m, hs, _⟩ | ⟨hs, _⟩ | ⟨n, _, hb⟩
      · rw [h200] at hs; exact absurd hs (by decide)
      · rw [h200] at hs; exact absurd hs (by decide)
      · rw [h200] at hs; exact absurd hs (by decide)
      · exact ⟨n, by rw [hb]; simp⟩
  · intro state idParam
    rcases deleteTodo_responses state idParam with
      ⟨hs, hb⟩ | ⟨hs, hb⟩ | ⟨n, hs, hb⟩
    · exact ⟨⟨"the ID is invalid", by rw [hb]; simp⟩,
             fun h => by rw [h] at hs; exact absurd hs (by decide)⟩
    · exact ⟨⟨"Todo not found", by rw [hb]; simp⟩,
             fun h => by rw [h] at hs; exact absurd hs (by decide)⟩
    · exact ⟨⟨"Item deleted successfully", by rw [hb]; simp⟩,
             fun _ => ⟨n, by rw [hb]; simp⟩⟩
  · intro state idParam body hOID r hr
    have hre : r = ⟨400, [("message", JVal.str "The id is invalid"),
                          ("error", JVal.hexErr (hexParseErr (trimSpace idParam)))]⟩ := by
      simp [updateTodo, hOID] at hr
      exact hr
    subst hre
    exact ⟨JVal.hexErr (hexParseErr (trimSpace idParam)), by simp⟩
  · intro state idParam hOID
    exact ⟨JVal.hexErr (hexParseErr idParam), by simp [deleteTodo, hOID]⟩
  · intro state idParam p m o hOID
    by_cases ht : p.Title = ""
    · exact ⟨⟨400, [("message", JVal.str "could not decode the data"),
                    ("error", JVal.str m)]⟩,
             [⟨400, [("message", JVal.str "title cannot be empty")]⟩],
             by simp [updateTodo, hOID, ht], rfl, by simp⟩
    · exact ⟨⟨400, [("message", JVal.str "could not decode the data"),
                    ("error", JVal.str m)]⟩,
             [⟨200, [("message", JVal.str "Updated successfully"),
                     ("resultCount",
                      JVal.num (updateOne state o p.Title p.Completed).1)]⟩],
             by simp [updateTodo, hOID, ht], rfl, by simp⟩
  · intro state p m newId insertedId now
    simp [createTodo]
  · intro state newId insertedId now
    simp [createTodo]
  · intro state idParam v o hOID ht
    exact ⟨⟨400, [("message", JVal.str "title cannot be empty")]⟩,
           by simp [updateTodo, hOID, ht], rfl, by simp⟩
  · intro state idParam o hOID hc
    constructor <;> simp [deleteTodo, hOID, hc]

/-- Witness for C3 (amended): the successful-create clause applied at a
concrete input, with its hypothesis discharged. -/
theorem C3_amended_response_envelope_witness :
    ("ID", JVal.oid oidB)
      ∈ (createTodo [] (DecodeRes.ok ⟨"buy milk"⟩) oidA oidB 3).1.body :=
  (C3_amended_response_envelope.2.1 [] (DecodeRes.ok ⟨"buy milk"⟩) oidA oidB 3).2
    (by decide)

/-- C4, as stated, is false: the claim says any id that is not 24 lowercase
hex characters is rejected with 400 before touching storage, but
`ObjectIDFromHex` (Go `encoding/hex`) is case-insensitive: the 24-character
UPPERCASE id below parses, and the DELETE handler proceeds to storage and
deletes the matching record, answering 200. -/
theorem C4_counterexample :
    ((deleteTodo [⟨oidA, "buy milk", false, 0⟩] "AAAAAAAAAAAAAAAAAAAAAAAA").1.status
      = 200) ∧
    (deleteTodo [⟨oidA, "buy milk", false, 0⟩] "AAAAAAAAAAAAAAAAAAAAAAAA").2 = [] ∧
    ((updateTodo [⟨oidA, "buy milk", false, 0⟩] "AAAAAAAAAAAAAAAAAAAAAAAA"
        (DecodeRes.ok ⟨"updated", true⟩)).1.map Response.status = [200]) ∧
    (updateTodo [⟨oidA, "buy milk", false, 0⟩] "AAAAAAAAAAAAAAAAAAAAAAAA"
        (DecodeRes.ok ⟨"updated", true⟩)).2 = [⟨oidA, "updated", true, 0⟩] := by
  decide

/-- C4 (amended): an id is accepted exactly when (after whitespace trimming,
which only the PUT handler performs) it is a 24-character string of
hexadecimal digits of either case; any other id makes both PUT and DELETE
answer a single 400 response carrying an `error` field, leaving the
persisted state untouched and performing no storage operation. -/
theorem C4_amended_invalid_id_rejected :
    (∀ s : String, (ObjectIDFromHex s).isSome ↔
      (s.length = 24 ∧ ∀ c ∈ s.data, isHexDigitGo c)) ∧
    (∀ idParam state body, ObjectIDFromHex (trimSpace idParam) = none →
      ∃ r, (updateTodo state idParam body).1 = [r] ∧ r.status = 400 ∧
        hasField r "error" ∧ (updateTodo state idParam body).2 = state) ∧
    (∀ idParam state, ObjectIDFromHex idParam = none →
      (deleteTodo state idParam).1.status = 400 ∧
      hasField (deleteTodo state idParam).1 "error" ∧
      (deleteTodo state idParam).2 = state) := by
  refine ⟨?_, ?_, ?_⟩
  · intro s
    rw [Option.isSome_iff_ne_none, Ne, ObjectIDFromHex_eq_none_iff, not_not]
  · intro idParam state body hOID
    refine ⟨⟨400, [("message", JVal.str "The id is invalid"),
                   ("error", JVal.hexErr (hexParseErr (trimSpace idParam)))]⟩,
            by simp [updateTodo, hOID], rfl,
            ⟨JVal.hexErr (hexParseErr (trimSpace idParam)), by simp⟩,
            by simp [updateTodo, hOID]⟩
  · intro idParam state hOID
    refine ⟨by simp [deleteTodo, hOID],
            ⟨JVal.hexErr (hexParseErr idParam), by simp [deleteTodo, hOID]⟩,
            by simp [deleteTodo, hOID]⟩

/-- Witness for C4 (amended): the malformed id `xyz` is rejected by both
handlers with a single 400 response and untouched state. -/
theorem C4_amended_invalid_id_rejected_witness :
    (∃ r, (updateTodo [] "xyz" (DecodeRes.ok ⟨"t", false⟩)).1 = [r] ∧
      r.status = 400 ∧ hasField r "error" ∧
      (updateTodo [] "xyz" (DecodeRes.ok ⟨"t", false⟩)).2 = []) ∧
    ((deleteTodo [] "xyz").1.status = 400 ∧
      hasField (deleteTodo [] "xyz").1 "error" ∧
      (deleteTodo [] "xyz").2 = []) :=
  ⟨C4_amended_invalid_id_rejected.2.1 "xyz" [] (DecodeRes.ok ⟨"t", false⟩)
      (by decide),
   C4_amended_invalid_id_rejected.2.2 "xyz" [] (by decide)⟩

/-- The store left by the DELETE handler is a sublist of the store it was
given. -/
theorem deleteTodo_state_sublist (state : List TodoModel) (idParam : String) :
    (deleteTodo state idParam).2.Sublist state := by
  rcases hOID : ObjectIDFromHex idParam with _ | o
  · simp [deleteTodo, hOID]
  · by_cases hc : (deleteOne state o).1 = 0
    · have h := deleteOne_sublist state o
      simpa [deleteTodo, hOID, hc] using h
    · have h := deleteOne_sublist state o
      simpa [deleteTodo, hOID, hc] using h

/-- C5: the spec says create responds 201 returning the new item's id, and
the claim was taken as confirmed behaviour; it is not.  The 201 body carries
`result.InsertedID` (`main.go` line 250), which is the `_id` the driver's
`ensureID` generates inside `InsertOne` — the marshalled document has no
`_id`, its ObjectID field being tagged `bson:"id"` — and not the
`primitive.NewObjectID()` persisted in the record's `id` field (the two
generated ids are distinct, modelled by `oidA` persisted and `oidB`
returned).  At the concrete input below the persisted-state half of the
claim holds (exactly one item with the given title, `Completed = false`,
`CreatedAt = now`, listed by a subsequent GET), but the id the client
receives addresses nothing: it is not any persisted item's id, and deleting
by it answers 404. -/
theorem C5_create_returns_foreign_id :
    ((createTodo [] (DecodeRes.ok ⟨"buy milk"⟩) oidA oidB 3).1.status = 201) ∧
    (createTodo [] (DecodeRes.ok ⟨"buy milk"⟩) oidA oidB 3).1.body
      = [("message", JVal.str "Todo created successfully"),
         ("ID", JVal.oid oidB)] ∧
    (createTodo [] (DecodeRes.ok ⟨"buy milk"⟩) oidA oidB 3).2
      = [⟨oidA, "buy milk", false, 3⟩] ∧
    oidB ∉ (createTodo [] (DecodeRes.ok ⟨"buy milk"⟩) oidA oidB 3).2.map
      TodoModel.ID ∧
    ((deleteTodo (createTodo [] (DecodeRes.ok ⟨"buy milk"⟩) oidA oidB 3).2
        (oidHex oidB)).1.status = 404) ∧
    (getTodos (createTodo [] (DecodeRes.ok ⟨"buy milk"⟩) oidA oidB 3).2).body
      = [("message", JVal.str "All todos retrieved"),
         ("data", JVal.arr [⟨oidHex oidA, "buy milk", false, 3⟩])] := by decide

/-- C6: a successful update of an existing item (the first match of the
parsed id), with a decodable body and non-empty title, answers 200 and
changes exactly that item's `Title` and `Completed`; its `ID` and
`CreatedAt`, and every other persisted item, are left unchanged. -/
theorem C6_update_frame (pre post : List TodoModel) (td : TodoModel)
    (idParam : String) (t : String) (c : Bool)
    (hid : ObjectIDFromHex (trimSpace idParam) = some td.ID)
    (hpre : td.ID ∉ pre.map TodoModel.ID)
    (ht : t ≠ "") :
    ((updateTodo (pre ++ td :: post) idParam (DecodeRes.ok ⟨t, c⟩)).1.map
        Response.status = [200]) ∧
    (updateTodo (pre ++ td :: post) idParam (DecodeRes.ok ⟨t, c⟩)).2
      = pre ++ { td with Title := t, Completed := c } :: post := by
  constructor
  · simp [updateTodo, hid, ht]
  · have h := updateOne_first_match pre post td td.ID t c rfl hpre
    simp [updateTodo, hid, ht, h]

/-- Witness for C6 at a concrete input: only the matching item changes. -/
theorem C6_update_frame_witness :
    (updateTodo [⟨oidB, "other", false, 1⟩, ⟨oidA, "old", false, 2⟩]
        "aaaaaaaaaaaaaaaaaaaaaaaa" (DecodeRes.ok ⟨"new", true⟩)).2
      = [⟨oidB, "other", false, 1⟩, ⟨oidA, "new", true, 2⟩] := by
  have h := C6_update_frame [⟨oidB, "other", false, 1⟩] [] ⟨oidA, "old", false, 2⟩
    "aaaaaaaaaaaaaaaaaaaaaaaa" "new" true (by decide) (by decide) (by decide)
  exact h.2

/-- C7: with a well-formed id, DELETE removes exactly the first matching
record and answers 200 reporting deleted count 1 when a match exists; when
no record matches — including a repeated delete of the same id, when ids are
unique — it answers 404 and removes nothing. -/
theorem C7_delete (state : List TodoModel) (idParam : String) (o : ObjectID)
    (hid : ObjectIDFromHex idParam = some o) :
    (o ∉ state.map TodoModel.ID →
      (deleteTodo state idParam).1.status = 404 ∧
      (deleteTodo state idParam).2 = state) ∧
    (o ∈ state.map TodoModel.ID →
      ∃ pre td post, state = pre ++ td :: post ∧ td.ID = o ∧
        o ∉ pre.map TodoModel.ID ∧
        (deleteTodo state idParam).1.status = 200 ∧
        ("resultCont", JVal.num 1) ∈ (deleteTodo state idParam).1.body ∧
        (deleteTodo state idParam).2 = pre ++ post ∧
        ((state.map TodoModel.ID).Nodup →
          (deleteTodo (pre ++ post) idParam).1.status = 404 ∧
          (deleteTodo (pre ++ post) idParam).2 = pre ++ post)) := by
  constructor
  · intro hmem
    have hd := deleteOne_not_mem state o hmem
    constructor <;> simp [deleteTodo, hid, hd]
  · intro hmem
    obtain ⟨pre, td, post, h1, h2, h3⟩ := exists_first_match state o hmem
    subst h1
    have hd := deleteOne_first_match pre post td o h2 h3
    refine ⟨pre, td, post, rfl, h2, h3, ?_, ?_, ?_, ?_⟩
    · simp [deleteTodo, hid, hd]
    · simp [deleteTodo, hid, hd]
    · simp [deleteTodo, hid, hd]
    · intro hnodup
      have hnot : o ∉ (pre ++ post).map TodoModel.ID := by
        simp only [List.map_append, List.map_cons] at hnodup
        rw [List.nodup_middle, List.nodup_cons] at hnodup
        rw [List.map_append]
        exact fun hmem2 => hnodup.1 (by rw [← h2] at hmem2; exact hmem2)
      have hd2 := deleteOne_not_mem (pre ++ post) o hnot
      constructor <;> simp [deleteTodo, hid, hd2]

/-- Witness for C7 at a concrete input: delete an existing item, then
deleting the same id again yields 404. -/
theorem C7_delete_witness :
    ((deleteTodo [⟨oidA, "buy milk", false, 0⟩] "aaaaaaaaaaaaaaaaaaaaaaaa").1.status
      = 200) ∧
    ((deleteTodo [] "aaaaaaaaaaaaaaaaaaaaaaaa").1.status = 404) := by
  have h1 := (C7_delete [⟨oidA, "buy milk", false, 0⟩] "aaaaaaaaaaaaaaaaaaaaaaaa"
    oidA (by decide)).2 (by decide)
  have h2 := (C7_delete [] "aaaaaaaaaaaaaaaaaaaaaaaa" oidA (by decide)).1 (by decide)
  obtain ⟨pre, td, post, hstate, _, _, hs200, _, _, _⟩ := h1
  exact ⟨hs200, h2.1⟩

/-- C8: a PUT with a well-formed id matching no persisted item, a decodable
body and a non-empty title answers 200 (success, not an error) reporting 0
modified records, and the persisted state is unchanged. -/
theorem C8_update_missing_id (state : List TodoModel) (idParam : String)
    (o : ObjectID) (t : String) (c : Bool)
    (hid : ObjectIDFromHex (trimSpace idParam) = some o)
    (hmem : o ∉ state.map TodoModel.ID) (ht : t ≠ "") :
    updateTodo state idParam (DecodeRes.ok ⟨t, c⟩)
      = ([⟨200, [("message", JVal.str "Updated successfully"),
                 ("resultCount", JVal.num 0)]⟩], state) := by
  have hu := updateOne_not_mem state o t c hmem
  simp [updateTodo, hid, ht, hu]

/-- Witness for C8 at a concrete input. -/
theorem C8_update_missing_id_witness :
    updateTodo [] "aaaaaaaaaaaaaaaaaaaaaaaa" (DecodeRes.ok ⟨"t", true⟩)
      = ([⟨200, [("message", JVal.str "Updated successfully"),
                 ("resultCount", JVal.num 0)]⟩], []) :=
  C8_update_missing_id [] "aaaaaaaaaaaaaaaaaaaaaaaa" oidA "t" true
    (by decide) (by decide) (by decide)

/-- The store invariant of the spec: every persisted item has a non-empty
title and the ids are pairwise distinct. -/
def Inv (state : List TodoModel) : Prop :=
  (∀ td ∈ state, td.Title ≠ "") ∧ (state.map TodoModel.ID).Nodup

/-- C9: every handler (create with a freshly generated id, update, delete)
preserves the store invariant that every persisted item has a non-empty
title and a unique id. -/
theorem C9_invariant_preserved (state : List TodoModel) (hInv : Inv state) :
    (∀ body newId insertedId now, newId ∉ state.map TodoModel.ID →
      Inv (createTodo state body newId insertedId now).2) ∧
    (∀ idParam body, Inv (updateTodo state idParam body).2) ∧
    (∀ idParam, Inv (deleteTodo state idParam).2) := by
  obtain ⟨hTitles, hNodup⟩ := hInv
  refine ⟨?_, ?_, ?_⟩
  · intro body newId insertedId now hfresh
    rcases body with v | ⟨p, m⟩
    · by_cases ht : v.Title = ""
      · have hstate2 : (createTodo state (DecodeRes.ok v) newId insertedId now).2
            = state := by
          simp [createTodo, ht]
        rw [hstate2]; exact ⟨hTitles, hNodup⟩
      · have hstate2 : (createTodo state (DecodeRes.ok v) newId insertedId now).2
            = state ++ [⟨newId, v.Title, false, now⟩] := by
          simp [createTodo, insertOne, ht]
        rw [hstate2]
        constructor
        · intro td htd
          rcases List.mem_append.mp htd with h | h
          · exact hTitles td h
          · simp only [List.mem_singleton] at h
            subst h
            simpa using ht
        · rw [List.map_append, List.nodup_append]
          refine ⟨hNodup, by simp, ?_⟩
          intro a ha hb
          simp only [List.map_cons, List.map_nil, List.mem_singleton] at hb
          subst hb
          exact hfresh ha
    · have hstate2 : (createTodo state (DecodeRes.err p m) newId insertedId now).2
          = state := by
        simp [createTodo]
      rw [hstate2]; exact ⟨hTitles, hNodup⟩
  · intro idParam body
    rcases updateTodo_state_cases state idParam body with h | ⟨o, t, c, _, ht, h⟩
    · rw [h]; exact ⟨hTitles, hNodup⟩
    · rw [h]
      exact ⟨updateOne_titles state o t c ht hTitles,
             by rw [updateOne_map_ID]; exact hNodup⟩
  · intro idParam
    have hsub := deleteTodo_state_sublist state idParam
    exact ⟨fun td htd => hTitles td (hsub.subset htd),
           (hsub.map TodoModel.ID).nodup hNodup⟩

/-- Witness for C9 at a concrete input: creating a second item with a fresh
id preserves the invariant. -/
theorem C9_invariant_preserved_witness :
    Inv (createTodo [⟨oidA, "a", false, 0⟩] (DecodeRes.ok ⟨"b"⟩) oidB oidB 1).2 :=
  (C9_invariant_preserved [⟨oidA, "a", false, 0⟩] ⟨by decide, by decide⟩).1
    (DecodeRes.ok ⟨"b"⟩) oidB oidB 1 (by decide)

/-- C10: a `completed` value supplied in the POST body is ignored: the Go
struct `CreateTodo` declares only `title`, so for every decoded create body
the store is either unchanged (empty title) or gains exactly one item with
`Completed = false`, whatever `completed` the client sent. -/
theorem C10_completed_ignored (state : List TodoModel) (b : PostBody)
    (newId insertedId : ObjectID) (now : Nat) :
    (createTodo state (DecodeRes.ok (decodeCreateBody b)) newId insertedId now).2
      = state ∨
    (createTodo state (DecodeRes.ok (decodeCreateBody b)) newId insertedId now).2
      = state ++ [⟨newId, b.title, false, now⟩] := by
  by_cases ht : b.title = ""
  · left; simp [createTodo, decodeCreateBody, ht]
  · right; simp [createTodo, insertOne, decodeCreateBody, ht]

end TodoApp
